import Mathlib

/-!
Verification development for the Contract Analysis API
(`last_phase_app_api.py`): a FastAPI service offering PDF ingestion,
LLM-based field extraction, retrieval-augmented Q&A, and risk auditing.

The embedding models the request handlers as pure functions over an
explicit `ServerState` (the metadata directory, the uploaded-file
directory and the process-wide counters).  External services are
parameters:
  - `search`    : the Chroma similarity search (`vectordb.similarity_search`)
  - `llm`       : the chat model (its reply to the human message content)
  - `jsonLoads` : Python's `json.loads` (returns `none` on `JSONDecodeError`)
  - `loadPdfC`  : `PyPDFLoader.load` (content of each page of a PDF's bytes)
  - `chunkF`    : `RecursiveCharacterTextSplitter.split_documents`
  - `gen`       : the `uuid.uuid4()` supply (one fresh id per loop index)
Fallible handlers return `Except HTTPError`, paired with the state after
the call (exceptions abort but do not roll back earlier writes).
-/

/-- A JSON value, the result of a successful `json.loads`. -/
inductive Json where
  | null
  | bool (b : Bool)
  | num (n : Int)
  | str (s : String)
  | arr (items : List Json)
  | obj (fields : List (String × Json))

/-- Pydantic model `LiabilityCap` (the `float` amount is modelled as `Int`;
no claim depends on fractional amounts). -/
structure LiabilityCap where
  amount : Option Int := none
  currency : Option String := none
deriving Repr, DecidableEq

/-- Pydantic model `Signatory`; `name` is a required field. -/
structure Signatory where
  name : String
  title : Option String := none
deriving Repr, DecidableEq

/-- Pydantic model `ContractFields`.  `ContractFields()` (all defaults) is the
empty/all-null structure the code falls back to. -/
structure ContractFields where
  parties : List String := []
  effective_date : Option String := none
  term : Option String := none
  governing_law : Option String := none
  payment_terms : Option String := none
  termination : Option String := none
  auto_renewal : Option String := none
  confidentiality : Option String := none
  indemnity : Option String := none
  liability_cap : Option LiabilityCap := none
  signatories : List Signatory := []
deriving Repr, DecidableEq

/-- Pydantic model `RiskFinding`; the first four fields are required. -/
structure RiskFinding where
  risk_type : String
  severity : String
  description : String
  evidence : String
  recommendation : Option String := none
deriving Repr, DecidableEq

/-- The `audit_results` object merged into document metadata by `/audit`. -/
structure AuditResults where
  audit_date : String
  total_risks : Nat
  findings : List RiskFinding
deriving Repr, DecidableEq

/-- One metadata JSON file (`METADATA_DIR/{document_id}.json`).  Ingestion
writes the first seven keys; `/extract` adds `extracted_fields` and
`extraction_date`; `/audit` adds `audit_results`. -/
structure MetaRecord where
  document_id : String
  filename : String
  upload_date : String
  num_pages : Nat
  num_chunks : Nat
  file_path : String
  full_text_preview : String
  extracted_fields : Option ContractFields := none
  extraction_date : Option String := none
  audit_results : Option AuditResults := none
deriving Repr, DecidableEq

/-- An `HTTPException`: status code plus detail message. -/
structure HTTPError where
  status : Nat
  detail : String
deriving Repr, DecidableEq

/-- A directory of files keyed by name: look a key up (first match). -/
def lookupKey {α : Type} : List (String × α) → String → Option α
  | [], _ => none
  | p :: rest, k => if p.1 == k then some p.2 else lookupKey rest k

/-- Write a file into a keyed directory: overwrite the entry if the key is
present, append it otherwise (the semantics of `open(path, "w")`). -/
def storeWrite {α : Type} : List (String × α) → String → α → List (String × α)
  | [], k, v => [(k, v)]
  | p :: rest, k, v => if p.1 == k then (k, v) :: rest else p :: storeWrite rest k v

/-- `save_document_metadata`: dump the record to `METADATA_DIR/{id}.json`. -/
def save_document_metadata (store : List (String × MetaRecord)) (document_id : String)
    (m : MetaRecord) : List (String × MetaRecord) :=
  storeWrite store document_id m

/-- The server's persistent and in-process state: the uploaded-PDF directory,
the metadata directory, and the four process-wide counters. -/
structure ServerState where
  fs : List (String × String)
  metadataStore : List (String × MetaRecord)
  total_ingestions : Nat := 0
  total_extractions : Nat := 0
  total_questions : Nat := 0
  total_audits : Nat := 0
deriving Repr, DecidableEq

/-- Response model of `POST /ingest`. -/
structure IngestResponse where
  document_ids : List String
  message : String
  total_chunks : Nat
deriving Repr, DecidableEq

/-- Response model of `POST /extract`. -/
structure ExtractResponse where
  document_id : String
  fields : ContractFields
deriving Repr, DecidableEq

/-- Request model of `POST /ask` (`k` is validated to 1..10 by pydantic). -/
structure AskRequest where
  question : String
  document_ids : Option (List String) := none
  k : Nat := 3
deriving Repr, DecidableEq

/-- A retrieved chunk as returned by the vector store: its metadata
(`document_id`, `page`) and its text. -/
structure Doc where
  document_id : Option String
  page : Option Int
  page_content : String
deriving Repr, DecidableEq

/-- Response citation model: document id, page and a 200-char excerpt. -/
structure Citation where
  document_id : String
  page : Option Int
  content : String
deriving Repr, DecidableEq

/-- Response model of `POST /ask`. -/
structure AskResponse where
  question : String
  answer : String
  citations : List Citation
deriving Repr, DecidableEq

/-- Response model of `POST /audit`. -/
structure AuditResponse where
  document_id : String
  total_risks : Nat
  findings : List RiskFinding
  audit_date : String
deriving Repr, DecidableEq

/-- Response model of `GET /metrics`. -/
structure MetricsResponse where
  total_documents : Nat
  total_ingestions : Nat
  total_extractions : Nat
  total_questions : Nat
  total_audits : Nat
deriving Repr, DecidableEq

/-- One uploaded file of a `/ingest` request: filename and raw bytes. -/
structure IngestFile where
  filename : String
  content : String
deriving Repr, DecidableEq

/-! ### Pydantic validation of LLM JSON output

`ContractFields(**d)` / `RiskFinding(**d)` succeed only when the value is an
object whose present fields validate; a non-object makes the `**` spread (or
the iteration building the findings list) raise, and a present field of the
wrong shape raises `ValidationError`.  `none` here stands for "raises". -/

/-- Field access on a JSON object. -/
def getField (kvs : List (String × Json)) (key : String) : Option Json :=
  lookupKey kvs key

/-- A field with a default: absent means the default, present must validate. -/
def fieldOr {α : Type} (kvs : List (String × Json)) (key : String)
    (f : Json → Option α) (dflt : α) : Option α :=
  match getField kvs key with
  | none => some dflt
  | some j => f j

/-- Validate a `str` field (pydantic v1 coerces numbers to strings). -/
def jsonToStr : Json → Option String
  | .str s => some s
  | .num n => some (toString n)
  | _ => none

/-- Validate an `Optional[str]` field. -/
def jsonToOptStr : Json → Option (Option String)
  | .null => some none
  | j => (jsonToStr j).map some

/-- Validate an `Optional[float]` field (modelled over `Int`). -/
def jsonToOptInt : Json → Option (Option Int)
  | .null => some none
  | .num n => some (some n)
  | _ => none

/-- Validate a `List[str]` field. -/
def jsonToStrList : Json → Option (List String)
  | .arr items => items.mapM jsonToStr
  | _ => none

/-- Validate a `LiabilityCap` object. -/
def lcFromJson : Json → Option LiabilityCap
  | .obj kvs => do
    let amount ← fieldOr kvs "amount" jsonToOptInt none
    let currency ← fieldOr kvs "currency" jsonToOptStr none
    some { amount := amount, currency := currency }
  | _ => none

/-- Validate an `Optional[τ]` field given a validator for `τ`. -/
def optJson {α : Type} (f : Json → Option α) : Json → Option (Option α)
  | .null => some none
  | j => (f j).map some

/-- Validate a `Signatory` object (`name` required). -/
def sigFromJson : Json → Option Signatory
  | .obj kvs => do
    let name ← (getField kvs "name").bind jsonToStr
    let title ← fieldOr kvs "title" jsonToOptStr none
    some { name := name, title := title }
  | _ => none

/-- Validate a `List[Signatory]` field. -/
def sigListFromJson : Json → Option (List Signatory)
  | .arr items => items.mapM sigFromJson
  | _ => none

/-- `ContractFields(**fields_dict)`: requires a JSON object whose present
fields validate against the schema; anything else raises (is `none`). -/
def cfFromJson : Json → Option ContractFields
  | .obj kvs => do
    let parties ← fieldOr kvs "parties" jsonToStrList []
    let effective_date ← fieldOr kvs "effective_date" jsonToOptStr none
    let term ← fieldOr kvs "term" jsonToOptStr none
    let governing_law ← fieldOr kvs "governing_law" jsonToOptStr none
    let payment_terms ← fieldOr kvs "payment_terms" jsonToOptStr none
    let termination ← fieldOr kvs "termination" jsonToOptStr none
    let auto_renewal ← fieldOr kvs "auto_renewal" jsonToOptStr none
    let confidentiality ← fieldOr kvs "confidentiality" jsonToOptStr none
    let indemnity ← fieldOr kvs "indemnity" jsonToOptStr none
    let liability_cap ← fieldOr kvs "liability_cap" (optJson lcFromJson) none
    let signatories ← fieldOr kvs "signatories" sigListFromJson []
    some { parties := parties, effective_date := effective_date, term := term,
           governing_law := governing_law, payment_terms := payment_terms,
           termination := termination, auto_renewal := auto_renewal,
           confidentiality := confidentiality, indemnity := indemnity,
           liability_cap := liability_cap, signatories := signatories }
  | _ => none

/-- `RiskFinding(**finding)`: a JSON object with the four required string
fields and an optional recommendation. -/
def rfFromJson : Json → Option RiskFinding
  | .obj kvs => do
    let risk_type ← (getField kvs "risk_type").bind jsonToStr
    let severity ← (getField kvs "severity").bind jsonToStr
    let description ← (getField kvs "description").bind jsonToStr
    let evidence ← (getField kvs "evidence").bind jsonToStr
    let recommendation ← fieldOr kvs "recommendation" jsonToOptStr none
    some { risk_type := risk_type, severity := severity,
           description := description, evidence := evidence,
           recommendation := recommendation }
  | _ => none

/-- `[RiskFinding(**finding) for finding in findings_list]`: requires a JSON
array of valid finding objects; any other shape raises (is `none`). -/
def findingsFromJson : Json → Option (List RiskFinding)
  | .arr items => items.mapM rfFromJson
  | _ => none

/-! ### LLM-facing helpers (`extract_contract_fields`, `audit_contract_risks`,
`ask_question`) -/

/-- The human-message content sent by `extract_contract_fields`
(`full_text[:8000]`). -/
def extractLlmInput (full_text : String) : String :=
  "Contract text:\n\n" ++ full_text.take 8000

/-- The human-message content sent by `audit_contract_risks`
(`full_text[:10000]`). -/
def auditLlmInput (full_text : String) : String :=
  "Analyze this contract for risks:\n\n" ++ full_text.take 10000

/-- `"\n".join(d.page_content for d in load_pdf(...))`. -/
def fullTextOf (loadPdfC : String → List String) (content : String) : String :=
  String.intercalate "\n" (loadPdfC content)

/-- `extract_contract_fields`: ask the model for the fixed-schema JSON.
Only `json.JSONDecodeError` is caught (yielding `ContractFields()`); a reply
that decodes as JSON but fails `ContractFields(**...)` raises, which the
endpoint's generic handler will surface — modelled as `.error ()`. -/
def extract_contract_fields (llm : String → String) (jsonLoads : String → Option Json)
    (full_text : String) : Except Unit ContractFields :=
  match jsonLoads (llm (extractLlmInput full_text)) with
  | none => .ok {}
  | some j =>
    match cfFromJson j with
    | some cf => .ok cf
    | none => .error ()

/-- `audit_contract_risks`: ask the model for a JSON array of findings.
The handler catches `(json.JSONDecodeError, Exception)`, so both a decode
failure and a validation failure degrade to the empty findings list. -/
def audit_contract_risks (llm : String → String) (jsonLoads : String → Option Json)
    (full_text : String) : List RiskFinding :=
  match (jsonLoads (llm (auditLlmInput full_text))).bind findingsFromJson with
  | some l => l
  | none => []

/-- `doc.metadata.get("document_id") in document_ids` (a chunk with no
`document_id` key never matches: `None` is not in a list of strings). -/
def docMatches (ids : List String) (d : Doc) : Bool :=
  match d.document_id with
  | some i => ids.contains i
  | none => false

/-- The allow-list filtering loop of `ask_question`: walk the over-fetched
results in order, keep matches, and break as soon as `k` are kept (the
length test runs right after each append). -/
def filterTake (ids : List String) (k : Nat) : List Doc → List Doc
  | [] => []
  | d :: rest =>
    if docMatches ids d then
      if k ≤ 1 then [d] else d :: filterTake ids (k - 1) rest
    else filterTake ids k rest

/-- The retrieval step of `ask_question`: with a truthy allow-list the code
over-fetches `k*5` results and filters locally; otherwise it fetches `k`
directly (`if document_ids:` is falsy for both `None` and `[]`). -/
def retrieveDocs (search : String → Nat → List Doc) (query : String) (k : Nat)
    (document_ids : Option (List String)) : List Doc :=
  match document_ids with
  | some ids => if ids.isEmpty then search query k else filterTake ids k (search query (k * 5))
  | none => search query k

/-- The fixed short-circuit answer for empty retrieval. -/
def noInfoAnswer : String := "No relevant information found in the specified documents."

/-- `ask_question`: retrieve, short-circuit on empty retrieval, otherwise ask
the model over the joined context.  Returns the answer and the used chunks. -/
def ask_question (search : String → Nat → List Doc) (llm : String → String)
    (query : String) (k : Nat) (document_ids : Option (List String)) :
    String × List Doc :=
  let docs := retrieveDocs search query k document_ids
  if docs.isEmpty then (noInfoAnswer, [])
  else (llm ("Context:\n" ++ String.intercalate "\n\n" (docs.map (fun d => d.page_content))
             ++ "\n\nQuestion: " ++ query), docs)

/-- Build one response citation from a retrieved chunk
(`doc.metadata.get("document_id", "unknown")`, `content[:200]`). -/
def mkCitation (d : Doc) : Citation :=
  { document_id := d.document_id.getD "unknown",
    page := d.page,
    content := d.page_content.take 200 }

/-- The endpoint's allow-list validation: the first supplied id with no
metadata file, checked only when the list is truthy. -/
def askValidationError (st : ServerState) (document_ids : Option (List String)) :
    Option String :=
  match document_ids with
  | some ids =>
    if ids.isEmpty then none
    else ids.find? (fun i => (lookupKey st.metadataStore i).isNone)
  | none => none

/-- `POST /ask` (`ask_question_api`): validate the allow-list, run
`ask_question`, build citations, bump the question counter. -/
def ask_question_api (search : String → Nat → List Doc) (llm : String → String)
    (st : ServerState) (req : AskRequest) :
    (Except HTTPError AskResponse) × ServerState :=
  match askValidationError st req.document_ids with
  | some i => (.error ⟨404, "Document " ++ i ++ " not found"⟩, st)
  | none =>
    let r := ask_question search llm req.question req.k req.document_ids
    (.ok { question := req.question, answer := r.1, citations := r.2.map mkCitation },
     { st with total_questions := st.total_questions + 1 })

/-! ### `/ingest` -/

/-- The path the uploaded bytes are stored under
(`UPLOAD_DIR / f"{document_id}_{file.filename}"`). -/
def uploadPath (document_id filename : String) : String :=
  "./uploaded_contracts/" ++ document_id ++ "_" ++ filename

/-- One iteration of the ingest loop for a file whose name passed the `.pdf`
check: store the bytes, parse, chunk, and write the metadata record.
Returns the new state and the file's chunk count. -/
def ingestOne (loadPdfC : String → List String) (chunkF : List String → List String)
    (gen : Nat → String) (now : String) (i : Nat) (f : IngestFile) (st : ServerState) :
    ServerState × Nat :=
  let document_id := gen i
  let path := uploadPath document_id f.filename
  let pages := loadPdfC f.content
  let chunks := chunkF pages
  let record : MetaRecord :=
    { document_id := document_id, filename := f.filename, upload_date := now,
      num_pages := pages.length, num_chunks := chunks.length,
      file_path := path,
      full_text_preview := (String.intercalate "\n" pages).take 500 }
  ({ st with fs := storeWrite st.fs path f.content,
             metadataStore := save_document_metadata st.metadataStore document_id record },
   chunks.length)

/-- `file.filename.endswith(".pdf")`, modelled over the character list
(`String.endsWith` is defined by well-founded recursion and does not reduce
in the kernel). -/
def strEndsWith (s post : String) : Bool := post.data.isSuffixOf s.data

/-- The body of `/ingest`'s `try` block: process files in order, aborting at
the first non-`.pdf` filename with an `HTTPException(400)`.  Writes made for
earlier files persist (there is no rollback). -/
def ingestLoop (loadPdfC : String → List String) (chunkF : List String → List String)
    (gen : Nat → String) (now : String) :
    List IngestFile → Nat → ServerState →
    (Except HTTPError (List String × Nat)) × ServerState
  | [], _, st => (.ok ([], 0), st)
  | f :: rest, i, st =>
    if strEndsWith f.filename ".pdf" then
      let r := ingestOne loadPdfC chunkF gen now i f st
      match ingestLoop loadPdfC chunkF gen now rest (i + 1) r.1 with
      | (.ok (ids, total), st2) => (.ok (gen i :: ids, r.2 + total), st2)
      | (.error e, st2) => (.error e, st2)
    else (.error ⟨400, "File " ++ f.filename ++ " is not a PDF"⟩, st)

/-- `POST /ingest` (`ingest_contracts`).  Note the handler's blanket
`except Exception` has no preceding `except HTTPException: raise`, so even the
`HTTPException(400)` raised for a bad filename inside the `try` is re-wrapped
as a 500 whose detail embeds `str(e)`; only the empty-upload check, which sits
before the `try`, reaches the client as a 400. -/
def ingest_contracts (loadPdfC : String → List String) (chunkF : List String → List String)
    (gen : Nat → String) (now : String) (st : ServerState) (files : List IngestFile) :
    (Except HTTPError IngestResponse) × ServerState :=
  if files.isEmpty then (.error ⟨400, "No files provided"⟩, st)
  else
    match ingestLoop loadPdfC chunkF gen now files 0 st with
    | (.ok (ids, total), st2) =>
      (.ok { document_ids := ids,
             message := "Successfully ingested " ++ toString files.length ++ " document(s)",
             total_chunks := total },
       { st2 with total_ingestions := st2.total_ingestions + files.length })
    | (.error e, st2) =>
      (.error ⟨500, "Error during ingestion: " ++ toString e.status ++ ": " ++ e.detail⟩, st2)

/-! ### `/extract`, `/audit`, `/metrics` -/

/-- `POST /extract` (`extract_fields`): look the metadata up (404 if the file
is absent or the backing PDF is gone), re-parse the PDF, ask the model, merge
the result into the record, bump the counter.  A schema-validation failure
inside `extract_contract_fields` escapes to the generic 500 handler. -/
def extract_fields (loadPdfC : String → List String) (jsonLoads : String → Option Json)
    (llm : String → String) (now : String) (st : ServerState) (document_id : String) :
    (Except HTTPError ExtractResponse) × ServerState :=
  match lookupKey st.metadataStore document_id with
  | none => (.error ⟨404, "Document " ++ document_id ++ " not found"⟩, st)
  | some m =>
    if m.file_path == "" || (lookupKey st.fs m.file_path).isNone then
      (.error ⟨404, "PDF file for document " ++ document_id ++ " not found"⟩, st)
    else
      match extract_contract_fields llm jsonLoads
          (fullTextOf loadPdfC ((lookupKey st.fs m.file_path).getD "")) with
      | .error _ => (.error ⟨500, "Error extracting fields: validation error"⟩, st)
      | .ok fields =>
        (.ok { document_id := document_id, fields := fields },
         { st with
             metadataStore := save_document_metadata st.metadataStore document_id
               { m with extracted_fields := some fields, extraction_date := some now },
             total_extractions := st.total_extractions + 1 })

/-- `POST /audit` (`audit_contract`): same lookup/404 behaviour as `/extract`;
`audit_contract_risks` never raises, so the rest always succeeds. -/
def audit_contract (loadPdfC : String → List String) (jsonLoads : String → Option Json)
    (llm : String → String) (now : String) (st : ServerState) (document_id : String) :
    (Except HTTPError AuditResponse) × ServerState :=
  match lookupKey st.metadataStore document_id with
  | none => (.error ⟨404, "Document " ++ document_id ++ " not found"⟩, st)
  | some m =>
    if m.file_path == "" || (lookupKey st.fs m.file_path).isNone then
      (.error ⟨404, "PDF file for document " ++ document_id ++ " not found"⟩, st)
    else
      let findings := audit_contract_risks llm jsonLoads
        (fullTextOf loadPdfC ((lookupKey st.fs m.file_path).getD ""))
      (.ok { document_id := document_id, total_risks := findings.length,
             findings := findings, audit_date := now },
       { st with
           metadataStore := save_document_metadata st.metadataStore document_id
             { m with audit_results := some ⟨now, findings.length, findings⟩ },
           total_audits := st.total_audits + 1 })

/-- `GET /metrics` (`get_metrics`): `total_documents` is the live count of
`*.json` files in the metadata directory. -/
def get_metrics (st : ServerState) : MetricsResponse :=
  { total_documents := st.metadataStore.length,
    total_ingestions := st.total_ingestions,
    total_extractions := st.total_extractions,
    total_questions := st.total_questions,
    total_audits := st.total_audits }

/-! ### Concrete instances used in counterexamples and witnesses -/

/-- A server with no uploads and no metadata. -/
def stEmpty : ServerState := { fs := [], metadataStore := [] }

/-- A stub PDF parser: every byte string parses to two pages. -/
def loadPdfDemo : String → List String := fun _ => ["alpha page", "beta page"]

/-- A stub chunker: one window per page. -/
def chunkDemo : List String → List String := fun pages => pages

/-- A stub uuid supply with pairwise-distinct outputs. -/
def genDemo : Nat → String := fun n => String.mk (List.replicate (n + 1) 'd')

/-- A registered document record backed by an existing upload. -/
def mDemo : MetaRecord :=
  { document_id := "d1", filename := "c.pdf", upload_date := "t0",
    num_pages := 2, num_chunks := 2,
    file_path := uploadPath "d1" "c.pdf",
    full_text_preview := "alpha page\nbeta page" }

/-- A server holding exactly the document `d1`. -/
def stDemo : ServerState :=
  { fs := [(uploadPath "d1" "c.pdf", "pdfbytes")],
    metadataStore := [("d1", mDemo)],
    total_ingestions := 1 }

/-- A stub chat model that replies with the JSON array `[1]`: valid JSON that
`ContractFields(**...)` cannot accept. -/
def llmArr : String → String := fun _ => "[1]"

/-- `json.loads` evaluated at the reply `"[1]"` (the only string this
development feeds it): the JSON array `[1]`. -/
def jsonLoadsArr : String → Option Json :=
  fun s => if s == "[1]" then some (.arr [.num 1]) else none

/-- `json.loads` for a model whose replies never decode (malformed output). -/
def jsonLoadsNone : String → Option Json := fun _ => none

/-- A retrieved chunk owned by the registered document `d1`. -/
def docA : Doc := { document_id := some "d1", page := some 1, page_content := "alpha page" }

/-- A retrieved chunk owned by some other document. -/
def docB : Doc := { document_id := some "zz", page := some 2, page_content := "beta page" }

/-- A similarity search whose results are sparse in allow-listed documents:
of any `n` requested results only the third belongs to `d1`. -/
def sparseSearch : String → Nat → List Doc :=
  fun _ n => docB :: docB :: docA :: List.replicate (n - 3) docB

/-- An `/ask` request with allow-list `["d1"]` and bound `k = 3`. -/
def sparseReq : AskRequest := { question := "q", document_ids := some ["d1"], k := 3 }

/-- A similarity search returning nothing at all. -/
def emptySearch : String → Nat → List Doc := fun _ _ => []

/-! ### Store lemmas -/

theorem lookupKey_storeWrite_self {α : Type} (s : List (String × α)) (k : String) (v : α) :
    lookupKey (storeWrite s k v) k = some v := by
  induction s with
  | nil => simp [storeWrite, lookupKey]
  | cons p rest ih =>
    by_cases h : (p.1 == k) = true
    · simp [storeWrite, h, lookupKey]
    · simp [storeWrite, h, lookupKey, ih]

theorem length_storeWrite_found {α : Type} (s : List (String × α)) (k : String) (v v0 : α)
    (h : lookupKey s k = some v0) : (storeWrite s k v).length = s.length := by
  induction s with
  | nil => simp [lookupKey] at h
  | cons p rest ih =>
    by_cases hp : (p.1 == k) = true
    · simp [storeWrite, hp]
    · simp only [lookupKey, hp, if_false, Bool.false_eq_true, if_neg] at h
      simp [storeWrite, hp, ih h]

theorem length_storeWrite_fresh {α : Type} (s : List (String × α)) (k : String) (v : α)
    (h : lookupKey s k = none) : (storeWrite s k v).length = s.length + 1 := by
  induction s with
  | nil => simp [storeWrite]
  | cons p rest ih =>
    by_cases hp : (p.1 == k) = true
    · simp [lookupKey, hp] at h
    · simp only [lookupKey, hp, Bool.false_eq_true, if_neg] at h
      simp [storeWrite, hp, ih h]

theorem lookupKey_storeWrite_ne {α : Type} (s : List (String × α)) (k k2 : String) (v : α)
    (h : (k == k2) = false) : lookupKey (storeWrite s k v) k2 = lookupKey s k2 := by
  induction s with
  | nil => simp [storeWrite, lookupKey, h]
  | cons p rest ih =>
    by_cases hp : (p.1 == k) = true
    · have hp' : p.1 = k := by simpa using hp
      simp [storeWrite, hp, lookupKey, h, hp']
    · simp [storeWrite, hp, lookupKey, ih]

/-! ### Retrieval-filter lemmas -/

theorem docMatches_of_mem_filterTake (ids : List String) :
    ∀ (k : Nat) (l : List Doc) (d : Doc),
      d ∈ filterTake ids k l → docMatches ids d = true := by
  intro k l
  induction l generalizing k with
  | nil => intro d hd; simp [filterTake] at hd
  | cons a rest ih =>
    intro d hd
    by_cases hm : docMatches ids a = true
    · by_cases hk : k ≤ 1
      · simp only [filterTake, hm, if_true, hk] at hd
        simp at hd
        subst hd
        exact hm
      · simp only [filterTake, hm, if_true, hk, if_false] at hd
        rcases List.mem_cons.mp hd with h | h
        · subst h; exact hm
        · exact ih (k - 1) d h
    · simp only [filterTake, hm, Bool.false_eq_true, if_neg, if_false] at hd
      exact ih k d hd

theorem filterTake_eq_filter_take (ids : List String) :
    ∀ (l : List Doc) (k : Nat), 1 ≤ k →
      filterTake ids k l = (l.filter (docMatches ids)).take k := by
  intro l
  induction l with
  | nil => intro k _; simp [filterTake]
  | cons d rest ih =>
    intro k hk
    by_cases hm : docMatches ids d = true
    · by_cases hk1 : k ≤ 1
      · have hk' : k = 1 := le_antisymm hk1 hk
        subst hk'
        simp [filterTake, hm, List.filter_cons]
      · have hk2 : 1 ≤ k - 1 := by omega
        have hksucc : k = (k - 1) + 1 := by omega
        simp only [filterTake, hm, if_true, hk1, if_false, List.filter_cons]
        rw [ih (k - 1) hk2, hksucc]
        simp [List.take_succ_cons]
    · simp [filterTake, hm, List.filter_cons, ih k hk]

/-! ### Ingest-loop lemmas -/

theorem range_succ_map_add (gen : Nat → String) (i n : Nat) :
    (List.range (n + 1)).map (fun j => gen (i + j))
      = gen i :: (List.range n).map (fun j => gen (i + 1 + j)) := by
  have hf : ((fun j => gen (i + j)) ∘ Nat.succ) = fun j => gen (i + 1 + j) := by
    funext j
    show gen (i + (j + 1)) = gen (i + 1 + j)
    congr 1
    omega
  rw [List.range_succ_eq_map, List.map_cons, List.map_map, hf]
  simp

theorem ingestLoop_ok (loadPdfC : String → List String) (chunkF : List String → List String)
    (gen : Nat → String) (now : String) :
    ∀ (files : List IngestFile) (i : Nat) (st : ServerState),
      (∀ f ∈ files, strEndsWith f.filename ".pdf" = true) →
      (ingestLoop loadPdfC chunkF gen now files i st).1
        = .ok ((List.range files.length).map (fun j => gen (i + j)),
               (files.map (fun f => (chunkF (loadPdfC f.content)).length)).sum) := by
  intro files
  induction files with
  | nil => intro i st _; simp [ingestLoop]
  | cons f rest ih =>
    intro i st hall
    have hf : strEndsWith f.filename ".pdf" = true := hall f (List.mem_cons_self f rest)
    have hih := ih (i + 1) (ingestOne loadPdfC chunkF gen now i f st).1
      (fun g hg => hall g (List.mem_cons_of_mem f hg))
    simp only [ingestLoop, hf, if_true]
    rcases hL : ingestLoop loadPdfC chunkF gen now rest (i + 1)
        (ingestOne loadPdfC chunkF gen now i f st).1 with ⟨e, st2⟩
    rw [hL] at hih
    simp only at hih
    subst hih
    simp only [List.length_cons, List.map_cons, List.sum_cons, range_succ_map_add]
    rfl

theorem ingestLoop_meta_length (loadPdfC : String → List String)
    (chunkF : List String → List String) (gen : Nat → String) (now : String) :
    ∀ (files : List IngestFile) (i : Nat) (st : ServerState),
      (∀ f ∈ files, strEndsWith f.filename ".pdf" = true) →
      (∀ j, j < files.length → lookupKey st.metadataStore (gen (i + j)) = none) →
      ((List.range files.length).map (fun j => gen (i + j))).Nodup →
      ((ingestLoop loadPdfC chunkF gen now files i st).2).metadataStore.length
        = st.metadataStore.length + files.length := by
  intro files
  induction files with
  | nil => intro i st _ _ _; simp [ingestLoop]
  | cons f rest ih =>
    intro i st hall hfresh hnd
    have hf : strEndsWith f.filename ".pdf" = true := hall f (List.mem_cons_self f rest)
    have h0 : lookupKey st.metadataStore (gen i) = none := by
      have h := hfresh 0 (by simp)
      simpa using h
    have hlen1 : ((ingestOne loadPdfC chunkF gen now i f st).1).metadataStore.length
        = st.metadataStore.length + 1 := by
      simp only [ingestOne, save_document_metadata]
      exact length_storeWrite_fresh _ _ _ h0
    rw [List.length_cons, range_succ_map_add] at hnd
    have hnotmem := (List.nodup_cons.mp hnd).1
    have hndrest := (List.nodup_cons.mp hnd).2
    have hfresh1 : ∀ j, j < rest.length →
        lookupKey ((ingestOne loadPdfC chunkF gen now i f st).1).metadataStore
          (gen (i + 1 + j)) = none := by
      intro j hj
      have hne : (gen i == gen (i + 1 + j)) = false := by
        rcases Bool.eq_false_or_eq_true (gen i == gen (i + 1 + j)) with h | h
        · exact absurd (by
            rw [eq_of_beq h]
            exact List.mem_map.mpr ⟨j, List.mem_range.mpr hj, rfl⟩) hnotmem
        · exact h
      have hst : lookupKey st.metadataStore (gen (i + 1 + j)) = none := by
        have h := hfresh (j + 1) (by simpa using Nat.succ_lt_succ hj)
        have hidx : i + (j + 1) = i + 1 + j := by omega
        rwa [hidx] at h
      simp only [ingestOne, save_document_metadata]
      rw [lookupKey_storeWrite_ne _ _ _ _ hne]
      exact hst
    have hih := ih (i + 1) (ingestOne loadPdfC chunkF gen now i f st).1
      (fun g hg => hall g (List.mem_cons_of_mem f hg)) hfresh1 hndrest
    simp only [ingestLoop, hf, if_true]
    rcases hL : ingestLoop loadPdfC chunkF gen now rest (i + 1)
        (ingestOne loadPdfC chunkF gen now i f st).1 with ⟨e, st2⟩
    rw [hL] at hih
    simp only at hih
    cases e with
    | ok v =>
      rcases v with ⟨ids, total⟩
      simp only [List.length_cons]
      omega
    | error e' =>
      simp only [List.length_cons]
      omega

/-! ### Ask-path helper lemmas -/

theorem contains_getD_of_docMatches (ids : List String) (d : Doc)
    (h : docMatches ids d = true) :
    ids.contains (d.document_id.getD "unknown") = true := by
  cases hd : d.document_id with
  | none =>
    simp only [docMatches, hd] at h
    exact absurd h (by decide)
  | some i =>
    simp only [docMatches, hd] at h
    simpa [hd] using h

theorem mem_ask_question_docs (search : String → Nat → List Doc) (llm : String → String)
    (query : String) (k : Nat) (document_ids : Option (List String)) (d : Doc)
    (hd : d ∈ (ask_question search llm query k document_ids).2) :
    d ∈ retrieveDocs search query k document_ids := by
  unfold ask_question at hd
  by_cases h : (retrieveDocs search query k document_ids).isEmpty = true
  · simp [h] at hd
  · simpa [h] using hd

/-! ### Claim theorems -/

/-- C1: for every `/ask` request supplying a non-empty `document_ids`
allow-list, every citation of a successful response carries a `document_id`
that is a member of that allow-list. -/
theorem c1_ask_allowlist_citations
    (search : String → Nat → List Doc) (llm : String → String)
    (st : ServerState) (req : AskRequest) (ids : List String)
    (resp : AskResponse) (st2 : ServerState)
    (hids : req.document_ids = some ids) (hne : ids.isEmpty = false)
    (hok : ask_question_api search llm st req = (.ok resp, st2)) :
    resp.citations.all (fun c => ids.contains c.document_id) = true := by
  unfold ask_question_api askValidationError at hok
  rw [hids] at hok
  simp only [hne, Bool.false_eq_true, if_false] at hok
  cases hfind : ids.find? (fun i => (lookupKey st.metadataStore i).isNone) with
  | some b => rw [hfind] at hok; simp at hok
  | none =>
    rw [hfind] at hok
    simp only [Prod.mk.injEq, Except.ok.injEq] at hok
    have hresp := hok.1
    subst hresp
    rw [List.all_eq_true]
    intro c hc
    rcases List.mem_map.mp hc with ⟨d, hd, hcd⟩
    subst hcd
    have hd2 := mem_ask_question_docs search llm req.question req.k (some ids) d hd
    simp only [retrieveDocs, hne, Bool.false_eq_true, if_false] at hd2
    have hm := docMatches_of_mem_filterTake ids req.k _ d hd2
    simpa [mkCitation] using contains_getD_of_docMatches ids d hm

set_option maxRecDepth 8192 in
/-- C1 witness: a concrete `/ask` against `stDemo` with allow-list `["d1"]`
returns one citation, and it belongs to the allow-list. -/
theorem c1_witness :
    (AskResponse.mk "q" "ans" [Citation.mk "d1" (some 1) "alpha page"]).citations.all
      (fun c => (["d1"]).contains c.document_id) = true :=
  c1_ask_allowlist_citations sparseSearch (fun _ => "ans") stDemo sparseReq ["d1"]
    (AskResponse.mk "q" "ans" [Citation.mk "d1" (some 1) "alpha page"])
    { stDemo with total_questions := stDemo.total_questions + 1 }
    rfl rfl rfl

set_option maxRecDepth 8192 in
/-- C4: with a non-empty allow-list the retrieval step requests `k*5` results
from the similarity search, keeps the allow-listed ones in search order, and
truncates to at most `k`; a concrete search sparse in allow-listed matches
yields fewer than `k` citations (one instead of three). -/
theorem c4_overfetch_filter_truncate :
    (∀ (search : String → Nat → List Doc) (query : String) (k : Nat) (ids : List String),
        ids.isEmpty = false → 1 ≤ k →
        retrieveDocs search query k (some ids)
          = ((search query (k * 5)).filter (docMatches ids)).take k)
    ∧ (ask_question_api sparseSearch (fun _ => "ans") stDemo sparseReq).1
        = .ok ⟨"q", "ans", [⟨"d1", some 1, "alpha page"⟩]⟩
    ∧ 1 < sparseReq.k := by
  refine ⟨?_, ?_, ?_⟩
  · intro search query k ids hne hk
    simp only [retrieveDocs, hne, Bool.false_eq_true, if_false]
    exact filterTake_eq_filter_take ids _ k hk
  · rfl
  · decide

/-- C4 witness: the filter-and-truncate equation evaluated at the concrete
sparse search with `k = 3`. -/
theorem c4_witness :
    retrieveDocs sparseSearch "q" 3 (some ["d1"])
      = ((sparseSearch "q" (3 * 5)).filter (docMatches ["d1"])).take 3 :=
  c4_overfetch_filter_truncate.1 sparseSearch "q" 3 ["d1"] rfl (by decide)

/-- C5: when retrieval (after any allow-list filtering) yields no chunks,
`/ask` returns the fixed no-information answer and an empty citation list;
the conclusion holds for every chat model `llm`, so the model is never
consulted. -/
theorem c5_empty_retrieval_short_circuit
    (search : String → Nat → List Doc) (llm : String → String)
    (st : ServerState) (req : AskRequest)
    (hval : askValidationError st req.document_ids = none)
    (hempty : retrieveDocs search req.question req.k req.document_ids = []) :
    ask_question_api search llm st req
      = (.ok ⟨req.question, noInfoAnswer, []⟩,
         { st with total_questions := st.total_questions + 1 }) := by
  unfold ask_question_api
  rw [hval]
  simp only [ask_question, hempty, List.isEmpty_nil, if_true, List.map_nil]

/-- C5 witness: `/ask` against an empty vector index short-circuits. -/
theorem c5_witness :
    ask_question_api emptySearch (fun _ => "ans") stDemo sparseReq
      = (.ok ⟨"q", noInfoAnswer, []⟩,
         { stDemo with total_questions := stDemo.total_questions + 1 }) :=
  c5_empty_retrieval_short_circuit emptySearch (fun _ => "ans") stDemo sparseReq rfl rfl

/-- C2 counterexample: a model reply of `"[1]"` decodes as JSON (so the
fallback for `json.JSONDecodeError` is not taken) but cannot validate as
`ContractFields`, and `/extract` on the registered document `d1` then fails
with a 500 instead of returning the empty/all-null structure with a 200 —
refuting the claim that every schema-parse failure degrades silently. -/
theorem c2_counterexample :
    (jsonLoadsArr (llmArr (extractLlmInput (fullTextOf loadPdfDemo "pdfbytes")))).isSome = true
    ∧ cfFromJson (Json.arr [Json.num 1]) = none
    ∧ (extract_fields loadPdfDemo jsonLoadsArr llmArr "t1" stDemo "d1").1
        = .error ⟨500, "Error extracting fields: validation error"⟩ := by
  refine ⟨rfl, rfl, rfl⟩

/-- C2 (amended): when the model reply fails JSON decoding, `/extract`
returns a 200 with the empty/all-null `ContractFields`; only that failure is
caught — a reply that decodes but fails schema validation escapes as a 500
(see the counterexample). -/
theorem c2_decode_failure_degrades
    (loadPdfC : String → List String) (jsonLoads : String → Option Json)
    (llm : String → String) (now : String) (st : ServerState)
    (document_id : String) (m : MetaRecord) (content : String)
    (hm : lookupKey st.metadataStore document_id = some m)
    (hfp : (m.file_path == "") = false)
    (hfs : lookupKey st.fs m.file_path = some content)
    (hdec : jsonLoads (llm (extractLlmInput (fullTextOf loadPdfC content))) = none) :
    (extract_fields loadPdfC jsonLoads llm now st document_id).1
      = .ok ⟨document_id, {}⟩ := by
  unfold extract_fields
  rw [hm]
  simp only [hfp, hfs, Option.isNone_some, Bool.or_self, Bool.false_eq_true, if_false]
  simp only [Option.getD_some, extract_contract_fields, hdec]

/-- C2 witness: a model whose output never decodes yields a successful
all-null extraction for the registered document `d1`. -/
theorem c2_witness :
    (extract_fields loadPdfDemo jsonLoadsNone (fun _ => "not json") "t1" stDemo "d1").1
      = .ok ⟨"d1", {}⟩ :=
  c2_decode_failure_degrades loadPdfDemo jsonLoadsNone (fun _ => "not json") "t1"
    stDemo "d1" mDemo "pdfbytes" rfl rfl rfl rfl

/-- C3 (code behaviour at the failing input): uploading the single non-PDF
file `notes.txt` makes the handler raise `HTTPException(400)` inside its
`try` block, but the blanket `except Exception` re-wraps it, so the client
receives a 500 (not the documented 400); no metadata record is created and
no identifier is returned (the state is unchanged). -/
theorem c3_non_pdf_upload_behaviour :
    ingest_contracts loadPdfDemo chunkDemo genDemo "t" stEmpty
        [{ filename := "notes.txt", content := "x" }]
      = (.error ⟨500, "Error during ingestion: 400: File notes.txt is not a PDF"⟩,
         stEmpty) := by
  rfl

/-- C6: a successful `/ingest` of N valid PDFs returns N pairwise-distinct
document identifiers (distinctness rests on the uuid4 supply being
collision-free across the request, the only sense in which uuids are unique)
and a `total_chunks` equal to the sum over the files of the number of windows
produced by chunking that file. -/
theorem c6_ingest_ids_and_chunks
    (loadPdfC : String → List String) (chunkF : List String → List String)
    (gen : Nat → String) (now : String) (st : ServerState) (files : List IngestFile)
    (h1 : files.isEmpty = false)
    (h2 : ∀ f ∈ files, strEndsWith f.filename ".pdf" = true)
    (h3 : ((List.range files.length).map gen).Nodup) :
    ∃ resp st2, ingest_contracts loadPdfC chunkF gen now st files = (.ok resp, st2)
      ∧ resp.document_ids.length = files.length
      ∧ resp.document_ids.Nodup
      ∧ resp.total_chunks
          = (files.map (fun f => (chunkF (loadPdfC f.content)).length)).sum := by
  have hok := ingestLoop_ok loadPdfC chunkF gen now files 0 st h2
  unfold ingest_contracts
  simp only [h1, Bool.false_eq_true, if_false]
  rcases hL : ingestLoop loadPdfC chunkF gen now files 0 st with ⟨e, st2⟩
  rw [hL] at hok
  simp only at hok
  subst hok
  have hmg : (fun j => gen (0 + j)) = gen := by
    funext j
    rw [Nat.zero_add]
  refine ⟨_, _, rfl, by simp, ?_, rfl⟩
  show ((List.range files.length).map (fun j => gen (0 + j))).Nodup
  rw [hmg]
  exact h3

/-- C6 witness: ingesting two concrete PDFs yields two distinct identifiers
and the summed window count. -/
theorem c6_witness :
    ∃ resp st2,
      ingest_contracts loadPdfDemo chunkDemo genDemo "t" stEmpty
          [{ filename := "a.pdf", content := "x" }, { filename := "b.pdf", content := "y" }]
        = (.ok resp, st2)
      ∧ resp.document_ids.length
          = ([{ filename := "a.pdf", content := "x" },
              { filename := "b.pdf", content := "y" }] : List IngestFile).length
      ∧ resp.document_ids.Nodup
      ∧ resp.total_chunks
          = (([{ filename := "a.pdf", content := "x" },
               { filename := "b.pdf", content := "y" }] : List IngestFile).map
              (fun f => (chunkDemo (loadPdfDemo f.content)).length)).sum :=
  c6_ingest_ids_and_chunks loadPdfDemo chunkDemo genDemo "t" stEmpty
    [{ filename := "a.pdf", content := "x" }, { filename := "b.pdf", content := "y" }]
    rfl (by decide) (by decide)

/-- C7: `/extract` and `/audit` on an identifier with no metadata file, or
whose metadata's backing PDF no longer exists on disk (or has a falsy path),
fail with a 404 and leave the server state — in particular the metadata
store — unchanged. -/
theorem c7_extract_audit_not_found :
    (∀ (loadPdfC : String → List String) (jsonLoads : String → Option Json)
        (llm : String → String) (now : String) (st : ServerState) (document_id : String),
        lookupKey st.metadataStore document_id = none →
        extract_fields loadPdfC jsonLoads llm now st document_id
          = (.error ⟨404, "Document " ++ document_id ++ " not found"⟩, st)
        ∧ audit_contract loadPdfC jsonLoads llm now st document_id
          = (.error ⟨404, "Document " ++ document_id ++ " not found"⟩, st))
    ∧ (∀ (loadPdfC : String → List String) (jsonLoads : String → Option Json)
        (llm : String → String) (now : String) (st : ServerState)
        (document_id : String) (m : MetaRecord),
        lookupKey st.metadataStore document_id = some m →
        (m.file_path == "" || (lookupKey st.fs m.file_path).isNone) = true →
        extract_fields loadPdfC jsonLoads llm now st document_id
          = (.error ⟨404, "PDF file for document " ++ document_id ++ " not found"⟩, st)
        ∧ audit_contract loadPdfC jsonLoads llm now st document_id
          = (.error ⟨404, "PDF file for document " ++ document_id ++ " not found"⟩, st)) := by
  constructor
  · intro loadPdfC jsonLoads llm now st document_id hnone
    constructor
    · unfold extract_fields
      rw [hnone]
    · unfold audit_contract
      rw [hnone]
  · intro loadPdfC jsonLoads llm now st document_id m hm hgone
    constructor
    · unfold extract_fields
      rw [hm]
      simp only [hgone, if_true]
    · unfold audit_contract
      rw [hm]
      simp only [hgone, if_true]

/-- C7 witness: both endpoints 404 on the unregistered identifier `nope`
against the concrete one-document server, leaving the state unchanged. -/
theorem c7_witness :
    extract_fields loadPdfDemo jsonLoadsNone (fun _ => "ans") "t1" stDemo "nope"
      = (.error ⟨404, "Document " ++ "nope" ++ " not found"⟩, stDemo)
    ∧ audit_contract loadPdfDemo jsonLoadsNone (fun _ => "ans") "t1" stDemo "nope"
      = (.error ⟨404, "Document " ++ "nope" ++ " not found"⟩, stDemo) :=
  c7_extract_audit_not_found.1 loadPdfDemo jsonLoadsNone (fun _ => "ans") "t1" stDemo "nope" rfl

/-- C8: when the model's audit output is malformed — it fails JSON decoding,
or decodes but fails to validate as a list of `RiskFinding` — `/audit`
degrades to an empty findings list with `total_risks = 0`, returned as a
success. -/
theorem c8_audit_malformed_degrades
    (loadPdfC : String → List String) (jsonLoads : String → Option Json)
    (llm : String → String) (now : String) (st : ServerState)
    (document_id : String) (m : MetaRecord) (content : String)
    (hm : lookupKey st.metadataStore document_id = some m)
    (hfp : (m.file_path == "") = false)
    (hfs : lookupKey st.fs m.file_path = some content)
    (hmal : (jsonLoads (llm (auditLlmInput (fullTextOf loadPdfC content)))).bind
        findingsFromJson = none) :
    (audit_contract loadPdfC jsonLoads llm now st document_id).1
      = .ok ⟨document_id, 0, [], now⟩ := by
  unfold audit_contract
  rw [hm]
  simp only [hfp, hfs, Option.isNone_some, Bool.or_self, Bool.false_eq_true, if_false]
  simp only [Option.getD_some, audit_contract_risks, hmal]
  rfl

/-- C8 witness: a stub model returning non-JSON makes `/audit` on `d1`
succeed with zero findings. -/
theorem c8_witness :
    (audit_contract loadPdfDemo jsonLoadsNone (fun _ => "not json") "t1" stDemo "d1").1
      = .ok ⟨"d1", 0, [], "t1"⟩ :=
  c8_audit_malformed_degrades loadPdfDemo jsonLoadsNone (fun _ => "not json") "t1"
    stDemo "d1" mDemo "pdfbytes" rfl rfl rfl rfl

theorem extract_fields_meta_length
    (loadPdfC : String → List String) (jsonLoads : String → Option Json)
    (llm : String → String) (now : String) (st : ServerState) (document_id : String) :
    ((extract_fields loadPdfC jsonLoads llm now st document_id).2).metadataStore.length
      = st.metadataStore.length := by
  unfold extract_fields
  split
  · rfl
  · rename_i m hm
    split
    · rfl
    · split
      · rfl
      · rename_i fields hf
        simp only [save_document_metadata]
        exact length_storeWrite_found _ _ _ m hm

theorem audit_contract_meta_length
    (loadPdfC : String → List String) (jsonLoads : String → Option Json)
    (llm : String → String) (now : String) (st : ServerState) (document_id : String) :
    ((audit_contract loadPdfC jsonLoads llm now st document_id).2).metadataStore.length
      = st.metadataStore.length := by
  unfold audit_contract
  split
  · rfl
  · rename_i m hm
    split
    · rfl
    · simp only [save_document_metadata]
      exact length_storeWrite_found _ _ _ m hm

/-- C9: `/metrics` reports `total_documents` as the live count of metadata
files; each successful per-file ingestion (with fresh, pairwise-distinct
uuids) adds exactly one metadata file, while `/extract` and `/audit` — on
every path, success or failure — rewrite an existing file without changing
the count.  Hence the value tracks the store across any sequence of these
operations. -/
theorem c9_metrics_total_documents :
    (∀ st : ServerState, (get_metrics st).total_documents = st.metadataStore.length)
    ∧ (∀ (loadPdfC : String → List String) (jsonLoads : String → Option Json)
        (llm : String → String) (now : String) (st : ServerState) (document_id : String),
        ((extract_fields loadPdfC jsonLoads llm now st document_id).2).metadataStore.length
          = st.metadataStore.length)
    ∧ (∀ (loadPdfC : String → List String) (jsonLoads : String → Option Json)
        (llm : String → String) (now : String) (st : ServerState) (document_id : String),
        ((audit_contract loadPdfC jsonLoads llm now st document_id).2).metadataStore.length
          = st.metadataStore.length)
    ∧ (∀ (loadPdfC : String → List String) (chunkF : List String → List String)
        (gen : Nat → String) (now : String) (st : ServerState) (files : List IngestFile),
        (∀ f ∈ files, strEndsWith f.filename ".pdf" = true) →
        (∀ j, j < files.length → lookupKey st.metadataStore (gen j) = none) →
        ((List.range files.length).map gen).Nodup →
        ((ingest_contracts loadPdfC chunkF gen now st files).2).metadataStore.length
          = st.metadataStore.length + files.length) := by
  refine ⟨fun st => rfl, extract_fields_meta_length, audit_contract_meta_length, ?_⟩
  intro loadPdfC chunkF gen now st files hall hfresh hnd
  have hmg : (fun j => gen (0 + j)) = gen := by
    funext j
    rw [Nat.zero_add]
  have hfresh0 : ∀ j, j < files.length →
      lookupKey st.metadataStore (gen (0 + j)) = none := by
    intro j hj
    rw [Nat.zero_add]
    exact hfresh j hj
  have hnd0 : ((List.range files.length).map (fun j => gen (0 + j))).Nodup := by
    rw [hmg]
    exact hnd
  have hlen := ingestLoop_meta_length loadPdfC chunkF gen now files 0 st hall hfresh0 hnd0
  unfold ingest_contracts
  cases h1 : files.isEmpty with
  | true =>
    have hfe : files = [] := List.isEmpty_iff.mp h1
    subst hfe
    simp
  | false =>
    simp only [Bool.false_eq_true, if_false]
    rcases hL : ingestLoop loadPdfC chunkF gen now files 0 st with ⟨e, st2⟩
    rw [hL] at hlen
    cases e with
    | ok v =>
      rcases v with ⟨ids, total⟩
      simpa using hlen
    | error e2 => simpa using hlen

/-- C9 witness: ingesting one fresh PDF into the empty server raises the
metadata-file count from 0 to 1. -/
theorem c9_witness :
    ((ingest_contracts loadPdfDemo chunkDemo genDemo "t" stEmpty
        [{ filename := "a.pdf", content := "x" }]).2).metadataStore.length
      = stEmpty.metadataStore.length
        + ([{ filename := "a.pdf", content := "x" }] : List IngestFile).length :=
  c9_metrics_total_documents.2.2.2 loadPdfDemo chunkDemo genDemo "t" stEmpty
    [{ filename := "a.pdf", content := "x" }]
    (by decide) (fun j _ => rfl) (by decide)

/-- C10: merging results back preserves every other key of the metadata
record: a successful `/extract` stores exactly the old record with only
`extracted_fields` and `extraction_date` replaced, and a successful `/audit`
stores exactly the old record with only `audit_results` replaced; in
particular `document_id`, `filename`, `upload_date`, `num_pages`,
`num_chunks`, `file_path` and `full_text_preview` keep their values. -/
theorem c10_merge_frame :
    (∀ (loadPdfC : String → List String) (jsonLoads : String → Option Json)
        (llm : String → String) (now : String) (st : ServerState)
        (document_id : String) (m : MetaRecord) (resp : ExtractResponse) (st2 : ServerState),
        lookupKey st.metadataStore document_id = some m →
        extract_fields loadPdfC jsonLoads llm now st document_id = (.ok resp, st2) →
        lookupKey st2.metadataStore document_id
          = some { m with extracted_fields := some resp.fields,
                          extraction_date := some now })
    ∧ (∀ (loadPdfC : String → List String) (jsonLoads : String → Option Json)
        (llm : String → String) (now : String) (st : ServerState)
        (document_id : String) (resp2 : AuditResponse) (st2 : ServerState) (m : MetaRecord),
        lookupKey st.metadataStore document_id = some m →
        audit_contract loadPdfC jsonLoads llm now st document_id = (.ok resp2, st2) →
        lookupKey st2.metadataStore document_id
          = some { m with
                     audit_results := some { audit_date := now,
                                             total_risks := resp2.total_risks,
                                             findings := resp2.findings } }) := by
  constructor
  · intro loadPdfC jsonLoads llm now st document_id m resp st2 hm hok
    unfold extract_fields at hok
    simp only [hm] at hok
    split at hok
    · exact absurd hok (by simp)
    · split at hok
      · exact absurd hok (by simp)
      · rename_i fields he
        simp only [Prod.mk.injEq, Except.ok.injEq] at hok
        obtain ⟨hresp, hst2⟩ := hok
        subst hresp
        subst hst2
        simp only [save_document_metadata]
        rw [lookupKey_storeWrite_self]
  · intro loadPdfC jsonLoads llm now st document_id resp2 st2 m hm hok
    unfold audit_contract at hok
    simp only [hm] at hok
    split at hok
    · exact absurd hok (by simp)
    · simp only [Prod.mk.injEq, Except.ok.injEq] at hok
      obtain ⟨hresp, hst2⟩ := hok
      subst hresp
      subst hst2
      simp only [save_document_metadata]
      rw [lookupKey_storeWrite_self]

/-- C10 witness: after a concrete successful `/extract` on `d1`, the stored
record is the old one with only the two extraction keys replaced. -/
theorem c10_witness :
    lookupKey ((extract_fields loadPdfDemo jsonLoadsNone (fun _ => "not json")
        "t1" stDemo "d1").2).metadataStore "d1"
      = some { mDemo with extracted_fields := some {}, extraction_date := some "t1" } :=
  c10_merge_frame.1 loadPdfDemo jsonLoadsNone (fun _ => "not json") "t1" stDemo "d1"
    mDemo { document_id := "d1", fields := {} }
    (extract_fields loadPdfDemo jsonLoadsNone (fun _ => "not json") "t1" stDemo "d1").2
    rfl rfl
